import Mathlib

/-!
Verification of the job-execution and tidy-TSV codec core of gql.py.

The Python source (src/python/gql.py) is shallowly embedded:

* text is modelled as List Char; a text file is a List of lines
  (Python's print appends one line, iterating a file yields lines);
* Python floats are modelled as decimal literals: either NaN or a value
  m / 10 ^ e given by an integer mantissa m and a decimal exponent e.
  This captures exactly the values that occur in the tidy TSV codec
  (decimal strings and NaN) while keeping every definition computable;
* fallible Python code (exceptions) is modelled with Except;
* the retry loop of Instance.run is modelled as a function of the
  sequence of process exit statuses;
* the pprof sampler thread is modelled as a discrete-time recursion;
* the file system seen by the caching layer is modelled as the list of
  existing local paths plus a transfer counter.
-/

/-- Convert a string literal to the List Char text representation. -/
def chars (s : String) : List Char :=
  s.data

/-- Digit character for a digit value, 0 maps to the character 0. -/
def digitToChar (d : Nat) : Char :=
  Char.ofNat (48 + d)

/-- Is the character a decimal digit? -/
def isDigitChar (c : Char) : Bool :=
  decide (48 ≤ c.toNat) && decide (c.toNat ≤ 57)

/-- Numeric value of a digit character (0 for non-digits). -/
def charVal (c : Char) : Nat :=
  c.toNat - 48

/-- Value of a most-significant-first digit string. -/
def digitsVal (s : List Char) : Nat :=
  s.foldl (fun a c => 10 * a + charVal c) 0

/-- Little-endian decimal digits of n, with explicit fuel; empty for 0. -/
def natDigitsLE (fuel : Nat) (n : Nat) : List Nat :=
  match fuel with
  | 0 => []
  | fuel + 1 => if n = 0 then [] else n % 10 :: natDigitsLE fuel (n / 10)

/-- Decimal rendering of a natural number, as Python str does. -/
def renderNat (n : Nat) : List Char :=
  if n = 0 then ['0'] else ((natDigitsLE n n).reverse.map digitToChar)

/-- Decimal rendering of an integer, as Python str does. -/
def renderInt (n : Int) : List Char :=
  if n < 0 then '-' :: renderNat (-n).toNat else renderNat n.toNat

/-- Fixed-width decimal rendering: exactly e digits, leading zeros kept. -/
def padDigits (e : Nat) (n : Nat) : List Char :=
  match e with
  | 0 => []
  | e + 1 => padDigits e (n / 10) ++ [digitToChar (n % 10)]

/-- Value of the little-endian digit list. -/
def ofDigitsLE (ds : List Nat) : Nat :=
  match ds with
  | [] => 0
  | d :: ds => d + 10 * ofDigitsLE ds

/-- Python int() on a string: an optional minus sign followed by digits.
Mirrors the cast performed by DataFrame.astype on an int column. -/
def parseInt (s : List Char) : Option Int :=
  if s.head? = some '-' then
    if s.tail ≠ [] ∧ s.tail.all isDigitChar then some (-(digitsVal s.tail : Int)) else none
  else if s ≠ [] ∧ s.all isDigitChar then some ((digitsVal s : Int)) else none

/-- A Python float value as it occurs in the tidy codec: NaN or a decimal
literal with integer mantissa m and decimal exponent e, denoting m / 10 ^ e. -/
inductive PyFloat where
  | nan : PyFloat
  | dec : Int → Nat → PyFloat
deriving DecidableEq, Repr

/-- Decimal rendering of a nonnegative mantissa n with e fractional digits. -/
def renderDec (n e : Nat) : List Char :=
  renderNat (n / 10 ^ e) ++ '.' :: padDigits e (n % 10 ^ e)

/-- Rendering of a decimal float literal, as Python repr of a float does
(sign, integer part, dot, fractional part). -/
def renderFloat (m : Int) (e : Nat) : List Char :=
  if m < 0 then '-' :: renderDec (-m).toNat e else renderDec m.toNat e

/-- Python float() on a string, restricted to the plain decimal grammar
(digits, optional dot and digits) that the codec emits. Mirrors the cast
performed by DataFrame.astype on a float column. The result keeps the
mantissa and the count of fractional digits. -/
def parseDec (s : List Char) : Option (Nat × Nat) :=
  if s.dropWhile isDigitChar = [] then
    if s.takeWhile isDigitChar = [] then none else some (digitsVal s, 0)
  else if (s.dropWhile isDigitChar).head? = some '.' then
    if (s.takeWhile isDigitChar = [] ∧ (s.dropWhile isDigitChar).tail = []) ∨
        ¬ (s.dropWhile isDigitChar).tail.all isDigitChar then none
    else
      some (digitsVal (s.takeWhile isDigitChar) * 10 ^ (s.dropWhile isDigitChar).tail.length
        + digitsVal ((s.dropWhile isDigitChar).tail), (s.dropWhile isDigitChar).tail.length)
  else none

/-- Parse a float string with optional leading minus sign. -/
def parseFloat (s : List Char) : Option PyFloat :=
  if s.head? = some '-' then
    (parseDec s.tail).map (fun p => PyFloat.dec (-(p.1 : Int)) p.2)
  else
    (parseDec s).map (fun p => PyFloat.dec ((p.1 : Int)) p.2)

/-- Column types of the tidy codec (numpy int, numpy float, object). -/
inductive TidyType where
  | int : TidyType
  | float : TidyType
  | string : TidyType
deriving DecidableEq, Repr

/-- TidyTSVParser.parse_type: int and float are recognised, every other
type name is treated as object (string). -/
def parse_type (name : List Char) : TidyType :=
  if name = chars "int" then TidyType.int
  else if name = chars "float" then TidyType.float
  else TidyType.string

/-- TidyTSVWriter.numpy_type_to_tidy. -/
def numpy_type_to_tidy : TidyType → List Char
  | TidyType.int => chars "int"
  | TidyType.float => chars "float"
  | TidyType.string => chars "string"

/-- A cell value as it lives in a DataFrame: numpy int, numpy float,
string, or the Python None used for a missing string. -/
inductive PyVal where
  | int : Int → PyVal
  | float : PyFloat → PyVal
  | str : List Char → PyVal
  | none : PyVal
deriving DecidableEq, Repr

/-- TidyTSVWriter.numpy_value_to_tidy: None, the int sentinel -9999999
(also a float equal to it, Python == compares values), and NaN render as
NA; everything else renders with the f-string. -/
def numpy_value_to_tidy : PyVal → List Char
  | PyVal.none => chars "NA"
  | PyVal.int n => if n = -9999999 then chars "NA" else renderInt n
  | PyVal.float PyFloat.nan => chars "NA"
  | PyVal.float (PyFloat.dec m e) =>
    if m = -9999999 * (10 : Int) ^ e then chars "NA" else renderFloat m e
  | PyVal.str s => s

/-- TidyTSVParser.hack_na on one cell: a field equal to NA becomes NaN in
a float column, the sentinel -9999999 in an int column, and None
otherwise; any other field is kept as a string. -/
def hackNaCell (ty : TidyType) (v : List Char) : PyVal :=
  if v ≠ chars "NA" then PyVal.str v
  else
    match ty with
    | TidyType.float => PyVal.float PyFloat.nan
    | TidyType.int => PyVal.int (-9999999)
    | TidyType.string => PyVal.none

/-- DataFrame.astype on one cell: strings in an int or float column are
parsed (a bad literal raises), values already of the column type pass
through, and an object column keeps every value unchanged. -/
def castCell (ty : TidyType) (v : PyVal) : Except (List Char) PyVal :=
  match ty, v with
  | TidyType.int, PyVal.int n => Except.ok (PyVal.int n)
  | TidyType.int, PyVal.str s =>
    match parseInt s with
    | some n => Except.ok (PyVal.int n)
    | none => Except.error (chars "ValueError: invalid literal for int")
  | TidyType.int, _ => Except.error (chars "ValueError: cannot convert to int")
  | TidyType.float, PyVal.float f => Except.ok (PyVal.float f)
  | TidyType.float, PyVal.str s =>
    match parseFloat s with
    | some f => Except.ok (PyVal.float f)
    | none => Except.error (chars "ValueError: could not convert string to float")
  | TidyType.float, PyVal.int n => Except.ok (PyVal.float (PyFloat.dec n 0))
  | TidyType.float, _ => Except.error (chars "ValueError: cannot convert to float")
  | TidyType.string, w => Except.ok w

/-- Does the line start with the comment character? (line[:1] == '#') -/
def isCommentLine (l : List Char) : Bool :=
  l.head? == some '#'

/-- Is the line blank after stripping whitespace? (not line.strip()) -/
def isBlankLine (l : List Char) : Bool :=
  l.all Char.isWhitespace

/-- comment_stripper: drop comment lines and blank lines, and also drop
the first surviving line (the header row); n counts surviving lines. -/
def commentStripGo (n : Nat) (lines : List (List Char)) : List (List Char) :=
  match lines with
  | [] => []
  | line :: rest =>
    if isCommentLine line then commentStripGo n rest
    else if isBlankLine line then commentStripGo n rest
    else if n + 1 = 1 then commentStripGo (n + 1) rest
    else line :: commentStripGo (n + 1) rest

/-- comment_stripper applied to a whole file, counter starting at 0. -/
def commentStrip (lines : List (List Char)) : List (List Char) :=
  commentStripGo 0 lines

/-- Tab-splitting one line, as csv.reader with a tab delimiter does on
lines none of whose fields begins with the double-quote character (a
leading quote would make the reader dequote the field; goodText rules it
out for every field the round-trip theorem feeds through here). -/
def splitTab (l : List Char) : List (List Char) :=
  l.splitOn '\t'

/-- Tab-joining fields, as the Python join with a tab separator does. -/
def joinTab (fs : List (List Char)) : List Char :=
  List.intercalate ['\t'] fs

/-- Effectful map over a list, stopping at the first error, mirroring a
Python loop or comprehension in which an iteration may raise. -/
def mapE {α β : Type} (f : α → Except (List Char) β) : List α → Except (List Char) (List β)
  | [] => Except.ok []
  | x :: xs =>
    match f x with
    | Except.error e => Except.error e
    | Except.ok y =>
      match mapE f xs with
      | Except.error e => Except.error e
      | Except.ok ys => Except.ok (y :: ys)

/-- An in-memory tidy table: the ordered column schema and the rows. -/
structure TidyTable where
  cols : List (List Char × TidyType)
  rows : List (List PyVal)
deriving DecidableEq, Repr

/-- One dictionary row: name is field 0, type is field 1 (missing fields
raise IndexError in the source). -/
def parseDictRow (fields : List (List Char)) : Except (List Char) (List Char × TidyType) :=
  match fields with
  | name :: tyName :: _ => Except.ok (name, parse_type tyName)
  | _ => Except.error (chars "IndexError: list index out of range")

/-- TidyTSVParser.read_dictionary over the dictionary file lines. -/
def readDict (dictLines : List (List Char)) :
    Except (List Char) (List (List Char × TidyType)) :=
  mapE (fun l => parseDictRow (splitTab l)) (commentStrip dictLines)

/-- hack_na over one data row. The source indexes cols[i] for every field
(raising when a row is longer than the schema); a mismatched field count
is a fatal parse error, so both mismatch directions are modelled as the
error case. -/
def hackNaRow (row : List (List Char)) (cols : List (List Char × TidyType)) :
    Except (List Char) (List PyVal) :=
  if row.length = cols.length then
    Except.ok ((row.zip cols).map (fun vc => hackNaCell vc.2.2 vc.1))
  else Except.error (chars "row and dictionary have different lengths")

/-- astype over one row, column by column. -/
def castRow (cols : List (List Char × TidyType)) (vals : List PyVal) :
    Except (List Char) (List PyVal) :=
  mapE (fun vc => castCell vc.2.2 vc.1) (vals.zip cols)

/-- Decode one already-split data row against the schema. -/
def decodeRow (cols : List (List Char × TidyType)) (fields : List (List Char)) :
    Except (List Char) (List PyVal) :=
  match hackNaRow fields cols with
  | Except.error e => Except.error e
  | Except.ok vs => castRow cols vs

/-- TidyTSVParser.read: parse the dictionary file, then parse, NA-fix and
cast every surviving data line. -/
def tidyRead (dictLines dataLines : List (List Char)) : Except (List Char) TidyTable :=
  match readDict dictLines with
  | Except.error e => Except.error e
  | Except.ok cols =>
    match mapE (fun l => decodeRow cols (splitTab l)) (commentStrip dataLines) with
    | Except.error e => Except.error e
    | Except.ok rows => Except.ok ⟨cols, rows⟩

/-- Header line of the dictionary file. -/
def dictHeader : List Char :=
  chars "column_name\ttype\tdescription"

/-- One dictionary line: name, type name, and the description slot. -/
def dictLine (c : List Char × TidyType) : List Char :=
  joinTab [c.1, numpy_type_to_tidy c.2, chars "Unknown"]

/-- Does the schema contain a column of the given type? -/
def hasCol (ty : TidyType) (cols : List (List Char × TidyType)) : Bool :=
  cols.any (fun c => c.2 == ty)

/-- The writer iterates DataFrame.iterrows(), which yields each row as a
Series of the common dtype of all columns: a frame mixing int and float
columns with no object column upcasts the whole row to float64, so every
int cell is handed to the renderer as the equal float; an object column,
or a pure int or pure float frame, keeps each value as it is. -/
def iterrowsUpcast (cols : List (List Char × TidyType)) : Bool :=
  hasCol TidyType.int cols && hasCol TidyType.float cols &&
    !hasCol TidyType.string cols

/-- The float a numpy int64 cell upcasts to under iterrows: the value
n.0, whose repr carries one fractional digit (exact for the mantissas a
float64 represents exactly; larger ints lose precision in the program, a
regime the round-trip theorem never enters because it excludes upcasting
frames altogether). Other values are unchanged. -/
def upcastVal : PyVal → PyVal
  | PyVal.int n => PyVal.float (PyFloat.dec (n * 10) 1)
  | v => v

/-- A row as iterrows hands it to the renderer. -/
def upcastRow (b : Bool) (r : List PyVal) : List PyVal :=
  if b then r.map upcastVal else r

/-- One rendered data line: the row as iterrows yields it, each cell
through numpy_value_to_tidy, joined with tabs. -/
def rowLine (cols : List (List Char × TidyType)) (r : List PyVal) : List Char :=
  joinTab ((upcastRow (iterrowsUpcast cols) r).map numpy_value_to_tidy)

/-- A piece of text that survives the line handling of the codec: free of
tab, newline and carriage return, containing a visible character, not
starting with the comment character, and not starting with the CSV quote
character (csv.reader dequotes a field that begins with a double quote;
splitTab models the reader only on fields that do not). -/
def goodText (s : List Char) : Bool :=
  s.all (fun c => !(c == '\t' || c == '\n' || c == '\r')) &&
    s.any (fun c => !c.isWhitespace) && !(s.head? == some '#') &&
    !(s.head? == some '"')

/-- A cell that matches its column type and survives a round trip: int
cells are ints; float cells are NaN or a decimal whose value is not the
int sentinel; string cells are None or good text different from the NA
token. -/
def goodCell : TidyType → PyVal → Bool
  | TidyType.int, PyVal.int _ => true
  | TidyType.float, PyVal.float PyFloat.nan => true
  | TidyType.float, PyVal.float (PyFloat.dec m e) => !(m == -9999999 * (10 : Int) ^ e)
  | TidyType.string, PyVal.none => true
  | TidyType.string, PyVal.str s => goodText s && !(s == chars "NA")
  | _, _ => false

instance {ε α : Type} [DecidableEq ε] [DecidableEq α] : DecidableEq (Except ε α) := fun a b =>
  match a, b with
  | Except.error e, Except.error f =>
    if h : e = f then Decidable.isTrue (congrArg Except.error h)
    else Decidable.isFalse (fun hh => h (Except.error.inj hh))
  | Except.ok x, Except.ok y =>
    if h : x = y then Decidable.isTrue (congrArg Except.ok h)
    else Decidable.isFalse (fun hh => h (Except.ok.inj hh))
  | Except.error _, Except.ok _ => Decidable.isFalse (fun hh => Except.noConfusion hh)
  | Except.ok _, Except.error _ => Decidable.isFalse (fun hh => Except.noConfusion hh)

/-- One pass of the retry loop of Instance.run, driven by the sequence of
process exit statuses (status k is the exit status of the k-th call of
subprocess.call). The arguments are the remaining iteration budget
(max_retries + 1 - retries), the index of the next attempt, and the value
of self.status so far (initialised to 0 in the constructor). The result
is the final self.status and the number of process invocations made. -/
def runLoop (status : Nat → Int) : Nat → Nat → Int → Int × Nat
  | 0, k, last => (last, k)
  | fuel + 1, k, _ =>
    if status k = 0 then (status k, k + 1)
    else runLoop status fuel (k + 1) (status k)

/-- Instance.run: retries = 0, loop while retries <= max_retries, return
self.status; paired with the number of invocations performed. -/
def runJob (status : Nat → Int) (max_retries : Nat) : Int × Nat :=
  runLoop status (max_retries + 1) 0 0

/-- Python iteration over a Dict yields its keys; the dict is modelled as
the association list of its entries in insertion order. -/
def dictKeys (params : List (List Char × List Char)) : List (List Char) :=
  params.map Prod.fst

/-- The parameter rendering of Instance.run, as written in the source:
the loop for k, v in self.gql_params iterates over the keys of the dict
and tuple-unpacks each key string into the two variables, which succeeds
only when the key has exactly two characters (k and v then each hold one
character); any other key length raises ValueError. -/
def renderParamsCode (params : List (List Char × List Char)) :
    Except (List Char) (List (List Char)) :=
  mapE
    (fun key =>
      match key with
      | [a, b] => Except.ok (chars "--" ++ [a] ++ ['='] ++ [b])
      | _ => Except.error (chars "ValueError: not 2 values to unpack"))
    (dictKeys params)

/-- Modelled from the spec words for comparison: render the parameters as
one argument of the form --key=value per dictionary entry. -/
def renderParamsSpec (params : List (List Char × List Char)) : List (List Char) :=
  params.map (fun kv => chars "--" ++ kv.1 ++ ['='] ++ kv.2)

/-- The validation and label defaulting performed by GQL.eval before an
Instance is built (GQL.run is identical up to the default label): raise
unless exactly one of expr and script_path is set, then replace an empty
label by the default. Returns the effective label. -/
def evalPrepare (expr script_path label : List Char) : Except (List Char) (List Char) :=
  if (expr == ([] : List Char)) = (script_path == ([] : List Char)) then
    Except.error (chars "run: Exactly one of expr or script_path must be set")
  else Except.ok (if label = [] then chars "anon_expr" else label)

/-- The validation performed by the Instance constructor: it raises when
neither script_path nor expr is set, and when the label is empty; a call
with both set passes (the expr branch then overwrites script_path). -/
def instanceInit (label script_path expr : List Char) : Except (List Char) Unit :=
  if script_path = [] ∧ expr = [] then
    Except.error (chars "Exactly one of script_path or expr must be set")
  else if label = [] then Except.error (chars "label cannot be empty")
  else Except.ok ()

/-- GQL.eval after flag merging: validate and default the label, run the
engine with the retry loop, raise when the final status is nonzero, and
otherwise decode the temporary output file with the tidy parser. The
engine behaviour is abstracted by the status sequence, the produced
output by the two file contents. The second component counts the engine
process invocations performed. -/
def evalModel (expr script_path label : List Char) (status : Nat → Int)
    (max_retries : Nat) (outDict outData : List (List Char)) :
    Except (List Char) TidyTable × Nat :=
  match evalPrepare expr script_path label with
  | Except.error e => (Except.error e, 0)
  | Except.ok _ =>
    if (runJob status max_retries).1 ≠ 0 then
      (Except.error (chars "eval: gql finished with nonzero status"),
        (runJob status max_retries).2)
    else (tidyRead outDict outData, (runJob status max_retries).2)

/-- One pprof sampler thread (Instance.pprof) in discrete time. T is the
absolute time at which join_pprof sets done and notifies; d is the time
the two snapshot fetches of one cycle take; the remaining arguments are
the iteration budget and the current time (the moment the sampler enters
wait_pprof_timeout). Each cycle waits on the condition variable with a
30-unit timeout (woken early only if the notify happens during the wait),
then either exits or fetches and sleeps another fixed 30 units. Returns
the termination time and the start times of the fetch cycles. -/
def sampler (T d : Nat) : Nat → Nat → Nat × List Nat
  | 0, t => (t, [])
  | fuel + 1, t =>
    if T ≤ t then (t + 30, [])
    else if T ≤ t + 30 then (T, [])
    else
      let r := sampler T d fuel (t + 30 + d + 30)
      (r.1, (t + 30) :: r.2)

/-- The local file system as the caching layer sees it: the list of
existing local paths, plus a count of grail-file cp transfers. -/
structure FsState where
  files : List (List Char)
  transfers : Nat
deriving DecidableEq, Repr

/-- Does the path name an S3 object? -/
def isS3 (path : List Char) : Bool :=
  (chars "s3://").isPrefixOf path

/-- removeall: S3 paths are left alone (TODO in the source); local paths
are removed. -/
def removeall (fs : FsState) (path : List Char) : FsState :=
  if isS3 path then fs else { fs with files := fs.files.filter (fun f => f ≠ path) }

/-- GQL.copy_file: run grail-file cp (which creates the destination and
counts as one transfer), then, in the finally clause, removeall the
destination. -/
def copy_file (fs : FsState) (dst : List Char) : FsState :=
  removeall { fs with files := dst :: fs.files, transfers := fs.transfers + 1 } dst

/-- The local cache path of an S3 object: CACHE_DIR joined with the
remote path with every slash replaced by an underscore. -/
def cachePath (path : List Char) : List Char :=
  chars "/tmp/gql_python_cache_user/" ++ path.map (fun c => if c = '/' then '_' else c)

/-- GQL.maybe_cache_file: an S3 path is downloaded to its cache path
unless that path already exists, and the cache path is returned; any
other path is returned unchanged. -/
def maybe_cache_file (fs : FsState) (path : List Char) : FsState × List Char :=
  if isS3 path then
    if cachePath path ∈ fs.files then (fs, cachePath path)
    else (copy_file fs (cachePath path), cachePath path)
  else (fs, path)

/-- The log path of an Instance: os.path.join(log_dir, label) + "log.txt". -/
def logPath (logDir label : List Char) : List Char :=
  logDir ++ '/' :: label ++ chars "log.txt"

/-- A pprof snapshot path: log prefix, endpoint tag (bm or main),
resource tag (cpu or heap), sequence number, and the pprof suffix. -/
def pprofPath (logDir label tag res : List Char) (seq : Nat) : List Char :=
  logDir ++ '/' :: label ++ tag ++ '_' :: res ++ '.' :: renderNat seq ++ chars ".pprof"

/-- The per-call temporary output path built by GQL.eval from the unique
sequence number. -/
def tempOutPath (logDir label : List Char) (seq : Nat) : List Char :=
  logDir ++ '-' :: label ++ chars "-expr_to_dataframe_tmp-" ++ renderNat seq ++ chars ".tsv"

/-- File events of TidyTSVWriter.write, in program order. -/
inductive FileEvent where
  | create : List Char → FileEvent
  | writeLine : List Char → List Char → FileEvent
  | close : List Char → FileEvent
deriving DecidableEq, Repr

/-- The data dictionary path for a .tsv path (tidy_data_dictionary_path). -/
def dictPath (base : List Char) : List Char :=
  base ++ chars "_data_dictionary.tsv"

/-- The data file path. -/
def dataPath (base : List Char) : List Char :=
  base ++ chars ".tsv"

/-- The file events of TidyTSVWriter.write in the order the source
performs them: create the dictionary file, print its header and one line
per column, close it; only then create the data file, print the column
header and one line per row, close it. -/
def writeEvents (base : List Char) (t : TidyTable) : List FileEvent :=
  (FileEvent.create (dictPath base) ::
      FileEvent.writeLine (dictPath base) dictHeader ::
      t.cols.map (fun c => FileEvent.writeLine (dictPath base) (dictLine c)) ++
      [FileEvent.close (dictPath base)]) ++
    (FileEvent.create (dataPath base) ::
      FileEvent.writeLine (dataPath base) (joinTab (t.cols.map Prod.fst)) ::
      t.rows.map (fun r => FileEvent.writeLine (dataPath base) (rowLine t.cols r)) ++
      [FileEvent.close (dataPath base)])

/-- Run a sequence of file events against an oracle telling which
operation succeeds; the i-th event fails when ops i is false, in which
case the exception carries the prefix of events already performed. -/
def runOps (ops : Nat → Bool) : Nat → List FileEvent → Except (List FileEvent) (List FileEvent)
  | _, [] => Except.ok []
  | i, e :: es =>
    if ops i then
      match runOps ops (i + 1) es with
      | Except.ok tr => Except.ok (e :: tr)
      | Except.error tr => Except.error (e :: tr)
    else Except.error []

/-- The dictionary file of the concrete decode scenario. -/
def dictEx : List (List Char) :=
  [chars "column_name\ttype\tdescription",
   chars "A\tint\tUnknown",
   chars "B\tstring\tUnknown",
   chars "D\tfloat\tUnknown"]

/-- The data file of the concrete decode scenario. -/
def dataEx : List (List Char) :=
  [chars "A\tB\tD",
   chars "1\t/a\t2.5",
   chars "2\ts3://a\tNA"]

/-- The table the concrete decode scenario must produce. -/
def tableEx : TidyTable :=
  ⟨[(chars "A", TidyType.int), (chars "B", TidyType.string), (chars "D", TidyType.float)],
   [[PyVal.int 1, PyVal.str (chars "/a"), PyVal.float (PyFloat.dec 25 1)],
    [PyVal.int 2, PyVal.str (chars "s3://a"), PyVal.float PyFloat.nan]]⟩

theorem ofDigitsLE_natDigitsLE (fuel n : Nat) (h : n ≤ fuel) :
    ofDigitsLE (natDigitsLE fuel n) = n := by
  induction fuel generalizing n with
  | zero => interval_cases n; simp [natDigitsLE, ofDigitsLE]
  | succ fuel ih =>
    by_cases hn : n = 0
    · simp [natDigitsLE, hn, ofDigitsLE]
    · have hd : n / 10 ≤ fuel := by
        have : n / 10 < n := Nat.div_lt_self (Nat.pos_of_ne_zero hn) (by omega)
        omega
      simp only [natDigitsLE, hn, if_false, ofDigitsLE, ih _ hd]
      omega

theorem natDigitsLE_lt_ten (fuel n : Nat) : ∀ d ∈ natDigitsLE fuel n, d < 10 := by
  induction fuel generalizing n with
  | zero => simp [natDigitsLE]
  | succ fuel ih =>
    by_cases hn : n = 0
    · simp [natDigitsLE, hn]
    · simp only [natDigitsLE, hn, if_false, List.mem_cons]
      rintro d (rfl | hd)
      · exact Nat.mod_lt _ (by omega)
      · exact ih _ d hd

theorem charVal_digitToChar {d : Nat} (h : d < 10) : charVal (digitToChar d) = d := by
  interval_cases d <;> decide

theorem isDigitChar_digitToChar {d : Nat} (h : d < 10) :
    isDigitChar (digitToChar d) = true := by
  interval_cases d <;> decide

theorem digitsVal_append_singleton (s : List Char) (c : Char) :
    digitsVal (s ++ [c]) = 10 * digitsVal s + charVal c := by
  simp [digitsVal, List.foldl_append]

theorem digitsVal_reverse_map (ds : List Nat) (h : ∀ d ∈ ds, d < 10) :
    digitsVal (ds.reverse.map digitToChar) = ofDigitsLE ds := by
  induction ds with
  | nil => simp [digitsVal, ofDigitsLE]
  | cons d ds ih =>
    simp only [List.reverse_cons, List.map_append, List.map_cons, List.map_nil]
    rw [digitsVal_append_singleton, ih (fun x hx => h x (List.mem_cons_of_mem _ hx))]
    rw [charVal_digitToChar (h d (List.mem_cons_self _ _))]
    simp [ofDigitsLE]; ring

theorem digitsVal_renderNat (n : Nat) : digitsVal (renderNat n) = n := by
  by_cases hn : n = 0
  · simp [renderNat, hn, digitsVal, charVal]
  · simp only [renderNat, hn, if_false]
    rw [digitsVal_reverse_map _ (natDigitsLE_lt_ten n n)]
    exact ofDigitsLE_natDigitsLE n n le_rfl

theorem renderNat_all_digit (n : Nat) : ∀ c ∈ renderNat n, isDigitChar c = true := by
  by_cases hn : n = 0
  · simp [renderNat, hn]; decide
  · simp only [renderNat, hn, if_false]
    intro c hc
    rw [List.mem_map] at hc
    obtain ⟨d, hd, rfl⟩ := hc
    rw [List.mem_reverse] at hd
    exact isDigitChar_digitToChar (natDigitsLE_lt_ten n n d hd)

theorem padDigits_all_digit (e n : Nat) : ∀ c ∈ padDigits e n, isDigitChar c = true := by
  induction e generalizing n with
  | zero => simp [padDigits]
  | succ e ih =>
    simp only [padDigits, List.mem_append, List.mem_singleton]
    rintro c (hc | rfl)
    · exact ih _ c hc
    · exact isDigitChar_digitToChar (Nat.mod_lt _ (by omega))

theorem isDigitChar_props {c : Char} (h : isDigitChar c = true) :
    c ≠ '\t' ∧ c ≠ '\n' ∧ c ≠ '\r' ∧ c.isWhitespace = false ∧ c ≠ '#' ∧
      c ≠ '-' ∧ c ≠ '.' ∧ c ≠ 'N' ∧ c ≠ 'A' ∧ c ≠ '"' := by
  simp only [isDigitChar, Bool.and_eq_true, decide_eq_true_eq] at h
  obtain ⟨h1, h2⟩ := h
  have hne : ∀ d : Char, (48 ≤ d.toNat → d.toNat ≤ 57 → False) → c ≠ d := by
    intro d hd e
    subst e
    exact hd h1 h2
  have ht : c ≠ '\t' := hne _ (by decide)
  have hn : c ≠ '\n' := hne _ (by decide)
  have hr : c ≠ '\r' := hne _ (by decide)
  have hs : c ≠ ' ' := hne _ (by decide)
  refine ⟨ht, hn, hr, ?_, hne _ (by decide), hne _ (by decide), hne _ (by decide),
    hne _ (by decide), hne _ (by decide), hne _ (by decide)⟩
  simp [Char.isWhitespace, ht, hn, hr, hs]

theorem renderInt_chars (n : Int) :
    ∀ c ∈ renderInt n, isDigitChar c = true ∨ c = '-' ∨ c = '.' := by
  unfold renderInt
  split
  · intro c hc
    rcases List.mem_cons.mp hc with rfl | hc
    · exact Or.inr (Or.inl rfl)
    · exact Or.inl (renderNat_all_digit _ c hc)
  · exact fun c hc => Or.inl (renderNat_all_digit _ c hc)

theorem renderDec_chars (n e : Nat) :
    ∀ c ∈ renderDec n e, isDigitChar c = true ∨ c = '-' ∨ c = '.' := by
  intro c hc
  rcases List.mem_append.mp hc with hc | hc
  · exact Or.inl (renderNat_all_digit _ c hc)
  · rcases List.mem_cons.mp hc with rfl | hc
    · exact Or.inr (Or.inr rfl)
    · exact Or.inl (padDigits_all_digit _ _ c hc)

theorem renderFloat_chars (m : Int) (e : Nat) :
    ∀ c ∈ renderFloat m e, isDigitChar c = true ∨ c = '-' ∨ c = '.' := by
  unfold renderFloat
  split
  · intro c hc
    rcases List.mem_cons.mp hc with rfl | hc
    · exact Or.inr (Or.inl rfl)
    · exact renderDec_chars _ _ c hc
  · exact renderDec_chars _ _

theorem numChar_props {c : Char} (h : isDigitChar c = true ∨ c = '-' ∨ c = '.') :
    c ≠ '\t' ∧ c ≠ '\n' ∧ c ≠ '\r' ∧ c.isWhitespace = false ∧ c ≠ '#' ∧
      c ≠ 'N' ∧ c ≠ '"' := by
  rcases h with h | rfl | rfl
  · obtain ⟨h1, h2, h3, h4, h5, _, _, h8, _, h10⟩ := isDigitChar_props h
    exact ⟨h1, h2, h3, h4, h5, h8, h10⟩
  · refine ⟨by decide, by decide, by decide, ?_, by decide, by decide, by decide⟩
    decide
  · refine ⟨by decide, by decide, by decide, ?_, by decide, by decide, by decide⟩
    decide

theorem numeric_ne_na {s : List Char}
    (h : ∀ c ∈ s, isDigitChar c = true ∨ c = '-' ∨ c = '.') : s ≠ chars "NA" := by
  intro e
  rw [e] at h
  have := numChar_props (h 'N' (by decide))
  exact this.2.2.2.2.2.1 rfl

theorem render_ne_na {ty : TidyType} {v : PyVal} (h : goodCell ty v = true) :
    numpy_value_to_tidy v = chars "NA" →
      v = PyVal.none ∨ v = PyVal.int (-9999999) ∨ v = PyVal.float PyFloat.nan := by
  intro he
  cases ty <;> cases v <;> simp only [goodCell] at h <;>
    first
      | exact Bool.noConfusion h
      | skip
  case int.int n =>
    by_cases hs : n = -9999999
    · exact Or.inr (Or.inl (by rw [hs]))
    · simp only [numpy_value_to_tidy, hs, if_false] at he
      exact absurd he (numeric_ne_na (renderInt_chars n))
  case float.float f =>
    cases f with
    | nan => exact Or.inr (Or.inr rfl)
    | dec m e =>
      simp only [Bool.not_eq_true', beq_eq_false_iff_ne] at h
      simp only [numpy_value_to_tidy, h, if_false] at he
      exact absurd he (numeric_ne_na (renderFloat_chars m e))
  case string.str s =>
    simp only [Bool.and_eq_true, Bool.not_eq_true', beq_eq_false_iff_ne] at h
    exact absurd he h.2
  case string.none => exact Or.inl rfl

theorem runLoop_all_fail (status : Nat → Int) (h : ∀ k, status k ≠ 0) :
    ∀ fuel k last, runLoop status (fuel + 1) k last = (status (k + fuel), k + fuel + 1) := by
  intro fuel
  induction fuel with
  | zero =>
    intro k last
    rw [runLoop, if_neg (h k)]
    show (status k, k + 1) = _
    simp
  | succ fuel ih =>
    intro k last
    rw [runLoop, if_neg (h k), ih (k + 1)]
    rw [show k + 1 + fuel = k + (fuel + 1) from by omega]

theorem runLoop_first_zero (status : Nat → Int) :
    ∀ j fuel k last, j < fuel → status (k + j) = 0 → (∀ i, i < j → status (k + i) ≠ 0) →
      runLoop status fuel k last = (0, k + j + 1) := by
  intro j
  induction j with
  | zero =>
    intro fuel k last hf h0 _
    cases fuel with
    | zero => omega
    | succ f =>
      rw [Nat.add_zero] at h0
      rw [runLoop, if_pos h0, h0]
  | succ j ih =>
    intro fuel k last hf h0 hne
    cases fuel with
    | zero => omega
    | succ f =>
      have hk : status k ≠ 0 := by
        have := hne 0 (by omega)
        simpa using this
      rw [runLoop, if_neg hk]
      have h0' : status (k + 1 + j) = 0 := by
        rw [show k + 1 + j = k + (j + 1) from by omega]
        exact h0
      have hne' : ∀ i, i < j → status (k + 1 + i) ≠ 0 := by
        intro i hi
        rw [show k + 1 + i = k + (i + 1) from by omega]
        exact hne (i + 1) (by omega)
      rw [ih f (k + 1) (status k) (by omega) h0' hne']
      rw [show k + 1 + j = k + (j + 1) from by omega]

/-- C1: for a job with max_retries n whose process fails on every
attempt, the run loop performs exactly n + 1 invocations and returns the
status of the last attempt; and as soon as an attempt exits with zero
(the j-th, with all earlier ones failing), the loop stops at once, having
made j + 1 invocations, and returns zero. -/
theorem C1_retry_loop (status : Nat → Int) (n : Nat) :
    ((∀ k, status k ≠ 0) → runJob status n = (status n, n + 1)) ∧
    (∀ j, j ≤ n → status j = 0 → (∀ i, i < j → status i ≠ 0) →
      runJob status n = (0, j + 1)) := by
  constructor
  · intro h
    rw [runJob, runLoop_all_fail status h n 0 0]
    simp
  · intro j hj h0 hne
    rw [runJob, runLoop_first_zero status j (n + 1) 0 0 (by omega) (by simpa using h0)
      (fun i hi => by simpa using hne i hi)]
    simp

/-- Witness: a process failing on all of 3 attempts (max_retries 2) gives
3 invocations and final status 1; a process succeeding on its second
attempt under max_retries 5 stops after 2 invocations with status 0. -/
theorem C1_retry_loop_witness :
    runJob (fun _ => 1) 2 = (1, 3) ∧
      runJob (fun k => if k = 1 then 0 else 1) 5 = (0, 2) := by
  constructor
  · exact (C1_retry_loop (fun _ => 1) 2).1 (fun k => by decide)
  · exact (C1_retry_loop (fun k => if k = 1 then 0 else 1) 5).2 1 (by decide) (by decide)
      (fun i hi => by interval_cases i; decide)

/-- C2: the parameter rendering of Instance.run iterates the params dict
itself (not its items), so each key string is tuple-unpacked: on the
documented example parameter (key input) the composition raises
ValueError instead of producing --input=...; the spec-modelled rendering
produces it; and even a key of exactly two characters is rendered from
the key's own characters, discarding the value. -/
theorem C2_params_rendering :
    renderParamsCode [(chars "input", chars "s3://mybucket/file")] =
      Except.error (chars "ValueError: not 2 values to unpack") ∧
    renderParamsSpec [(chars "input", chars "s3://mybucket/file")] =
      [chars "--input=s3://mybucket/file"] ∧
    renderParamsCode [(chars "ab", chars "value")] = Except.ok [chars "--a=b"] := by
  refine ⟨?_, ?_, ?_⟩ <;> decide

/-- C3: decode substitutes the literal NA field by the column type's
missing representation (None for strings, NaN for floats, the sentinel
-9999999 for ints), each surviving the column cast; every other field is
kept as a string (then cast to the column type); and the concrete
dictionary and data files of the scenario decode to the expected table. -/
theorem C3_na_substitution :
    (castCell TidyType.string (hackNaCell TidyType.string (chars "NA")) =
        Except.ok PyVal.none ∧
      castCell TidyType.float (hackNaCell TidyType.float (chars "NA")) =
        Except.ok (PyVal.float PyFloat.nan) ∧
      castCell TidyType.int (hackNaCell TidyType.int (chars "NA")) =
        Except.ok (PyVal.int (-9999999))) ∧
    (∀ ty v, v ≠ chars "NA" → hackNaCell ty v = PyVal.str v) ∧
    tidyRead dictEx dataEx = Except.ok tableEx := by
  refine ⟨by decide, ?_, by decide⟩
  intro ty v h
  simp [hackNaCell, h]

/-- Witness: a non-NA field is kept as a string. -/
theorem C3_na_substitution_witness :
    hackNaCell TidyType.int (chars "7") = PyVal.str (chars "7") :=
  C3_na_substitution.2.1 TidyType.int (chars "7") (by decide)

/-- C5 as stated is false for the empty-label half: a call of eval with
an empty label and a valid expr passes validation, the label is replaced
by the default anon_expr, and the engine is launched (here once, with a
succeeding process), rather than failing with a configuration error
before any process starts. -/
theorem C5_counterexample :
    evalPrepare (chars "1+1") [] [] = Except.ok (chars "anon_expr") ∧
    (evalModel (chars "1+1") [] [] (fun _ => 0) 0 dictEx dataEx).2 = 1 := by
  constructor <;> decide

/-- C5 amended: when neither or both of expr and script_path are set,
eval fails with a configuration error and launches zero engine
processes; a direct Instance construction with an empty label always
raises (the neither-set error takes priority); and a valid eval call
never fails on an empty label, which is replaced by the default. -/
theorem C5_amended_validation :
    (∀ expr script label : List Char,
      ((expr == ([] : List Char)) = (script == ([] : List Char))) →
        evalPrepare expr script label =
          Except.error (chars "run: Exactly one of expr or script_path must be set") ∧
        ∀ (status : Nat → Int) (mr : Nat) (oD oDa : List (List Char)),
          (evalModel expr script label status mr oD oDa).2 = 0) ∧
    (∀ script expr : List Char,
      instanceInit [] script expr =
        if script = [] ∧ expr = [] then
          Except.error (chars "Exactly one of script_path or expr must be set")
        else Except.error (chars "label cannot be empty")) ∧
    (∀ expr label : List Char, expr ≠ [] →
      evalPrepare expr [] label =
        Except.ok (if label = [] then chars "anon_expr" else label)) := by
  refine ⟨?_, ?_, ?_⟩
  · intro expr script label hb
    have he : evalPrepare expr script label =
        Except.error (chars "run: Exactly one of expr or script_path must be set") := by
      rw [evalPrepare, if_pos hb]
    refine ⟨he, ?_⟩
    intro status mr oD oDa
    rw [evalModel, he]
  · intro script expr
    by_cases hb : script = [] ∧ expr = []
    · rw [instanceInit, if_pos hb, if_pos hb]
    · rw [instanceInit, if_neg hb, if_pos rfl, if_neg hb]
  · intro expr label he
    rw [evalPrepare, if_neg]
    intro hb
    rw [show (([] : List Char) == ([] : List Char)) = true from rfl] at hb
    exact he (by simpa using hb)

/-- Witness: neither-set fails; a both-set call launches zero processes;
direct construction with an empty label raises; a valid call with empty
label gets the default label. -/
theorem C5_amended_validation_witness :
    evalPrepare [] [] (chars "L") =
      Except.error (chars "run: Exactly one of expr or script_path must be set") ∧
    (evalModel (chars "a") (chars "s") (chars "L") (fun _ => 0) 0 dictEx dataEx).2 = 0 ∧
    instanceInit [] (chars "s") (chars "e") = Except.error (chars "label cannot be empty") ∧
    evalPrepare (chars "1+1") [] (chars "lbl") = Except.ok (chars "lbl") := by
  refine ⟨(C5_amended_validation.1 [] [] (chars "L") (by decide)).1,
    (C5_amended_validation.1 (chars "a") (chars "s") (chars "L") (by decide)).2
      (fun _ => 0) 0 dictEx dataEx, ?_, ?_⟩
  · have h := C5_amended_validation.2.1 (chars "s") (chars "e")
    rw [if_neg (by decide)] at h
    exact h
  · have h := C5_amended_validation.2.2 (chars "1+1") (chars "lbl") (by decide)
    rw [if_neg (by decide)] at h
    exact h

/-- C6 as stated is false: the sampler has a second suspension point, the
unconditional 30-unit sleep after a fetch. With instantaneous fetches the
first fetch starts at time 30 and the sleep covers times 30 to 60; a stop
signaled at time 35, five units into that 30-unit interval, is observed
only after the sleep and one further full timed wait, at time 90 -- 55
units after the signal, beyond one interval. -/
theorem C6_counterexample :
    sampler 35 0 3 0 = (90, [30]) ∧ 30 < 90 - 35 := by
  constructor <;> decide

/-- C6 amended: no fetch cycle ever starts after the stop signal; a stop
signaled while the sampler sits in the 30-unit done-wait wakes it at the
signal time, terminating with no further fetch; a stop that predates the
wait is observed when the full 30-unit wait times out. The post-fetch
sleep, however, is a second suspension point, so termination within one
interval of the signal is not guaranteed in general. -/
theorem C6_sampler :
    (∀ (T d fuel t : Nat), ∀ s ∈ (sampler T d fuel t).2, s < T) ∧
    (∀ T d fuel t : Nat, t < T → T ≤ t + 30 → sampler T d (fuel + 1) t = (T, [])) ∧
    (∀ T d fuel t : Nat, T ≤ t → sampler T d (fuel + 1) t = (t + 30, [])) := by
  refine ⟨?_, ?_, ?_⟩
  · intro T d fuel
    induction fuel with
    | zero => intro t s hs; cases hs
    | succ fuel ih =>
      intro t s hs
      rw [sampler] at hs
      by_cases h1 : T ≤ t
      · rw [if_pos h1] at hs; cases hs
      · rw [if_neg h1] at hs
        by_cases h2 : T ≤ t + 30
        · rw [if_pos h2] at hs; cases hs
        · rw [if_neg h2] at hs
          rcases List.mem_cons.mp hs with rfl | hs
          · omega
          · exact ih _ s hs
  · intro T d fuel t h1 h2
    rw [sampler, if_neg (by omega), if_pos h2]
  · intro T d fuel t h1
    rw [sampler, if_pos h1]

/-- Witness: the fetch at time 30 precedes the signal at 35; a signal at
10 during the wait started at 5 ends the sampler at 10 with no fetch; a
signal at 5 before a wait started at 7 ends it at 37 with no fetch. -/
theorem C6_sampler_witness :
    30 < 35 ∧ sampler 10 0 3 5 = (10, []) ∧ sampler 5 0 3 7 = (37, []) :=
  ⟨C6_sampler.1 35 0 3 0 30 (by decide), C6_sampler.2.1 10 0 2 5 (by decide) (by decide),
    C6_sampler.2.2 5 0 2 7 (by decide)⟩

/-- C7: evaluating the caching layer at its failing input. The first open
of an S3 path triggers a transfer, but copy_file removes its destination
in its finally clause even on success, so no cached copy exists
afterwards and the returned path names a missing file; a second open of
the same path triggers a second transfer instead of reusing a cache.
Only the local-path half of the claim holds: a non-S3 path is returned
unchanged with no transfer. -/
theorem C7_cache_bug :
    (maybe_cache_file ⟨[], 0⟩ (chars "s3://b/f")).1.files = [] ∧
    (maybe_cache_file ⟨[], 0⟩ (chars "s3://b/f")).1.transfers = 1 ∧
    (maybe_cache_file ⟨[], 0⟩ (chars "s3://b/f")).2 = cachePath (chars "s3://b/f") ∧
    (maybe_cache_file (maybe_cache_file ⟨[], 0⟩ (chars "s3://b/f")).1
        (chars "s3://b/f")).1.transfers = 2 ∧
    (∀ (fs : FsState) (p : List Char), isS3 p = false → maybe_cache_file fs p = (fs, p)) := by
  refine ⟨by decide, by decide, by decide, by decide, ?_⟩
  intro fs p hp
  rw [maybe_cache_file, if_neg (by rw [hp]; exact Bool.false_ne_true)]

/-- Witness: a local path is returned unchanged. -/
theorem C7_cache_bug_witness :
    maybe_cache_file ⟨[], 0⟩ (chars "/local/x") = (⟨[], 0⟩, chars "/local/x") :=
  C7_cache_bug.2.2.2.2 ⟨[], 0⟩ (chars "/local/x") (by decide)

/-- C8 as stated is false: two distinct concurrent jobs (distinct eval
calls, witnessed by their distinct sequence numbers and temporary output
paths) that share a label -- for example the default anon_expr -- write
the same log path and the same profiling snapshot paths. -/
theorem C8_counterexample :
    tempOutPath (chars "/tmp/s") (chars "anon_expr") 0 ≠
      tempOutPath (chars "/tmp/s") (chars "anon_expr") 1 ∧
    logPath (chars "/tmp/s") (chars "anon_expr") =
      logPath (chars "/tmp/s") (chars "anon_expr") ∧
    pprofPath (chars "/tmp/s") (chars "anon_expr") (chars "bm") (chars "cpu") 0 =
      pprofPath (chars "/tmp/s") (chars "anon_expr") (chars "bm") (chars "cpu") 0 := by
  refine ⟨by decide, rfl, rfl⟩

/-- C8 amended: within one session, jobs with distinct labels have
distinct log paths; the temporary output paths of distinct eval calls are
always distinct because the sequence number is embedded; and for a fixed
label and endpoint the profiling snapshot paths of distinct cycles are
distinct. Jobs sharing a label collide (see the counterexample). -/
theorem C8_paths (d l1 l2 : List Char) (s1 s2 : Nat) :
    (logPath d l1 = logPath d l2 ↔ l1 = l2) ∧
    (tempOutPath d l1 s1 = tempOutPath d l1 s2 ↔ s1 = s2) ∧
    (pprofPath d l1 (chars "bm") (chars "cpu") s1 =
        pprofPath d l1 (chars "bm") (chars "cpu") s2 ↔ s1 = s2) := by
  have hrn : ∀ a b : Nat, renderNat a = renderNat b → a = b := by
    intro a b h
    rw [← digitsVal_renderNat a, ← digitsVal_renderNat b, h]
  refine ⟨⟨?_, fun h => by rw [h]⟩, ⟨?_, fun h => by rw [h]⟩, ⟨?_, fun h => by rw [h]⟩⟩
  · intro h
    rw [logPath, logPath] at h
    simp only [List.cons_append, List.append_assoc] at h
    exact List.append_cancel_right (List.cons_eq_cons.mp (List.append_cancel_left h)).2
  · intro h
    rw [tempOutPath, tempOutPath] at h
    simp only [List.cons_append, List.append_assoc] at h
    have h2 := (List.cons_eq_cons.mp (List.append_cancel_left h)).2
    have h3 := List.append_cancel_left (List.append_cancel_left h2)
    exact hrn _ _ (List.append_cancel_right h3)
  · intro h
    rw [pprofPath, pprofPath] at h
    simp only [List.cons_append, List.append_assoc] at h
    have h2 := (List.cons_eq_cons.mp (List.append_cancel_left h)).2
    have h3 := List.append_cancel_left (List.append_cancel_left h2)
    have h4 := List.append_cancel_left (List.cons_eq_cons.mp h3).2
    exact hrn _ _ (List.append_cancel_right (List.cons_eq_cons.mp h4).2)

theorem runOps_fail (ops : Nat → Bool) :
    ∀ (evs : List FileEvent) (i : Nat), (∃ j, j < evs.length ∧ ops (i + j) = false) →
      ∃ k, runOps ops i evs = Except.error (evs.take k) := by
  intro evs
  induction evs with
  | nil =>
    intro i h
    obtain ⟨j, hj, _⟩ := h
    simp at hj
  | cons e es ih =>
    intro i h
    obtain ⟨j, hj, hops⟩ := h
    by_cases hi : ops i = true
    · have hj0 : j ≠ 0 := by
        rintro rfl
        rw [Nat.add_zero, hi] at hops
        cases hops
      obtain ⟨j', rfl⟩ : ∃ j', j = j' + 1 := ⟨j - 1, by omega⟩
      obtain ⟨k, hk⟩ := ih (i + 1)
        ⟨j', by simpa using hj, by rw [show i + 1 + j' = i + (j' + 1) from by omega]; exact hops⟩
      refine ⟨k + 1, ?_⟩
      rw [runOps, if_pos hi, hk, List.take_succ_cons]
    · refine ⟨0, ?_⟩
      rw [runOps, if_neg hi]
      rfl

theorem runOps_ok (ops : Nat → Bool) :
    ∀ (evs : List FileEvent) (i : Nat), (∀ j, j < evs.length → ops (i + j) = true) →
      runOps ops i evs = Except.ok evs := by
  intro evs
  induction evs with
  | nil => intro i _; rfl
  | cons e es ih =>
    intro i h
    have h0 : ops i = true := by
      have := h 0 (by simp)
      simpa using this
    rw [runOps, if_pos h0, ih (i + 1) (fun j hj => by
      rw [show i + 1 + j = i + (j + 1) from by omega]
      exact h (j + 1) (by simpa using hj))]

theorem prefix_contains {α : Type} (D E : List α) (x : α) (hx : x ∉ D) (k : Nat)
    (h : x ∈ (D ++ E).take k) : ∀ y ∈ D, y ∈ (D ++ E).take k := by
  intro y hy
  by_cases hk : k ≤ D.length
  · rw [List.take_append_of_le_length hk] at h
    exact absurd (List.mem_of_mem_take h) hx
  · rw [List.take_append_eq_append_take, List.take_of_length_le (by omega)] at h ⊢
    exact List.mem_append_left _ hy

/-- C9: in the event sequence of the tidy encode, whenever the data file
has been created within the first k operations, the dictionary file has
already been closed and all of its lines written within those k
operations (so the data file is never begun while the dictionary is
incomplete, on complete and on truncated runs alike); a run in which some
operation fails surfaces an error to the caller, carrying exactly the
prefix of operations performed; and a run in which every operation
succeeds performs the full sequence. -/
theorem C9_encode_order (base : List Char) (t : TidyTable) :
    (∀ k, FileEvent.create (dataPath base) ∈ (writeEvents base t).take k →
      FileEvent.close (dictPath base) ∈ (writeEvents base t).take k ∧
      FileEvent.writeLine (dictPath base) dictHeader ∈ (writeEvents base t).take k ∧
      ∀ c ∈ t.cols,
        FileEvent.writeLine (dictPath base) (dictLine c) ∈ (writeEvents base t).take k) ∧
    (∀ ops : Nat → Bool, (∃ j, j < (writeEvents base t).length ∧ ops j = false) →
      ∃ k, runOps ops 0 (writeEvents base t) =
        Except.error ((writeEvents base t).take k)) ∧
    (∀ ops : Nat → Bool, (∀ j, j < (writeEvents base t).length → ops j = true) →
      runOps ops 0 (writeEvents base t) = Except.ok (writeEvents base t)) := by
  have hpath : dataPath base ≠ dictPath base := fun h =>
    absurd (List.append_cancel_left h) (by decide)
  refine ⟨?_, ?_, ?_⟩
  · intro k hk
    have hnotin : FileEvent.create (dataPath base) ∉
        (FileEvent.create (dictPath base) ::
          FileEvent.writeLine (dictPath base) dictHeader ::
          t.cols.map (fun c => FileEvent.writeLine (dictPath base) (dictLine c)) ++
          [FileEvent.close (dictPath base)]) := by
      intro hm
      simp only [List.cons_append, List.mem_cons, List.mem_append, List.mem_map,
        List.mem_singleton] at hm
      rcases hm with hm | hm | ⟨c, _, hm⟩ | hm | hm
      · exact hpath (FileEvent.create.inj hm)
      · exact FileEvent.noConfusion hm
      · exact FileEvent.noConfusion hm
      · exact FileEvent.noConfusion hm
      · cases hm
    have hD := prefix_contains _ _ _ hnotin k hk
    refine ⟨hD _ ?_, hD _ ?_, fun c hc => hD _ ?_⟩
    · exact List.mem_cons_of_mem _ (List.mem_cons_of_mem _
        (List.mem_append_right _ (List.mem_singleton_self _)))
    · exact List.mem_cons_of_mem _ (List.mem_cons_self _ _)
    · exact List.mem_cons_of_mem _ (List.mem_cons_of_mem _
        (List.mem_append_left _ (List.mem_map.mpr ⟨c, hc, rfl⟩)))
  · intro ops h
    obtain ⟨j, hj, hops⟩ := h
    exact runOps_fail ops _ 0 ⟨j, hj, by simpa using hops⟩
  · intro ops h
    exact runOps_ok ops _ 0 (fun j hj => by simpa using h j hj)

/-- Witness: with a base path and the scenario table, the data file
creation lies within the first 7 events, and indeed the dictionary close
and all dictionary lines do too; an oracle failing at operation 3
surfaces an error; the all-success oracle performs the whole sequence. -/
theorem C9_encode_order_witness :
    (FileEvent.close (dictPath (chars "/o")) ∈ (writeEvents (chars "/o") tableEx).take 7 ∧
      FileEvent.writeLine (dictPath (chars "/o")) dictHeader ∈
        (writeEvents (chars "/o") tableEx).take 7 ∧
      ∀ c ∈ tableEx.cols, FileEvent.writeLine (dictPath (chars "/o")) (dictLine c) ∈
        (writeEvents (chars "/o") tableEx).take 7) ∧
    (∃ k, runOps (fun i => decide (i < 3)) 0 (writeEvents (chars "/o") tableEx) =
      Except.error ((writeEvents (chars "/o") tableEx).take k)) ∧
    runOps (fun _ => true) 0 (writeEvents (chars "/o") tableEx) =
      Except.ok (writeEvents (chars "/o") tableEx) := by
  refine ⟨(C9_encode_order (chars "/o") tableEx).1 7 (by decide),
    (C9_encode_order (chars "/o") tableEx).2.1 (fun i => decide (i < 3)) ⟨3, by decide, by decide⟩,
    (C9_encode_order (chars "/o") tableEx).2.2 (fun _ => true) (fun j hj => rfl)⟩

/-- C10: once validation passes, eval raises (returns an error and no
table) whenever the retry loop's final exit status is nonzero, and
decodes the output file into a table exactly when the final status is
zero. -/
theorem C10_eval_status (expr script label : List Char) (status : Nat → Int)
    (mr : Nat) (outDict outData : List (List Char))
    (hv : (expr == ([] : List Char)) ≠ (script == ([] : List Char))) :
    ((runJob status mr).1 ≠ 0 →
      (evalModel expr script label status mr outDict outData).1 =
        Except.error (chars "eval: gql finished with nonzero status")) ∧
    ((runJob status mr).1 = 0 →
      (evalModel expr script label status mr outDict outData).1 =
        tidyRead outDict outData) := by
  have hprep : evalPrepare expr script label =
      Except.ok (if label = [] then chars "anon_expr" else label) := by
    rw [evalPrepare, if_neg hv]
  constructor
  · intro hst
    rw [evalModel, hprep]
    simp only [if_pos hst]
  · intro hst
    rw [evalModel, hprep]
    simp only [hst]
    simp

/-- Witness: with a failing process eval returns the error and no table;
with a succeeding process it returns the decode of the output file. -/
theorem C10_eval_status_witness :
    (evalModel (chars "1+1") [] (chars "L") (fun _ => 1) 0 dictEx dataEx).1 =
      Except.error (chars "eval: gql finished with nonzero status") ∧
    (evalModel (chars "1+1") [] (chars "L") (fun _ => 0) 0 dictEx dataEx).1 =
      tidyRead dictEx dataEx :=
  ⟨(C10_eval_status (chars "1+1") [] (chars "L") (fun _ => 1) 0 dictEx dataEx
      (by decide)).1 (by decide),
    (C10_eval_status (chars "1+1") [] (chars "L") (fun _ => 0) 0 dictEx dataEx
      (by decide)).2 (by decide)⟩
